import Mathlib

/-!
# Verification of `allianceauth-corptools-finances`

A shallow embedding of `finances/views.py` (the single dashboard view of the
plugin) together with proofs about its behaviour.

Modelling conventions:

* Django querysets (`CorporationWalletDivision.get_visible(user)`,
  `CorporationWalletJournalEntry.get_visible(user)`) are lists supplied by the
  environment `Env`; `.filter` is `List.filter`, aggregate `Sum`/`Count` are
  list sums and lengths, `order_by` is a sort (database ordering guarantees
  only a sorted permutation, which is what we model).
* `Decimal` amounts are modelled as exact rationals `ℚ`; `float(...)` and
  `isoformat()` in the series points are lossless-presentation steps of the
  template layer and the point keeps the exact rational and the ordinal day.
* A Python `datetime` (timezone-aware, one fixed timezone) is a `DateTime`:
  a proleptic-Gregorian ordinal `day : ℤ` plus a `tick : ℕ` within the day
  (microseconds; `time.min` is tick 0, `time.max` is tick 86399999999).
* A Python `date` is its ordinal day `ℤ` (days from 1970-01-01, computed from
  Y-M-D by the standard civil-calendar formula); comparison of valid dates
  coincides with comparison of ordinals.
* `request.GET` is the `Request` structure: `.get(k)` is an `Option String`,
  `.getlist(k)` a `List String`.
* `timezone.now()` is the single instant `Env.now` (the view calls it up to
  three times in one request; we model one instant for the whole request).
* Python `int(s)` is modelled as sign-and-digits parsing (`pyInt?`); the
  claims depend only on success/failure and the parsed value, not on the
  exact accepted grammar (whitespace, underscores).
-/

namespace Finances

/-- A timezone-aware datetime: ordinal day plus tick (microsecond) within the
day. `datetime.combine(d, time.min)` is `⟨d, 0⟩`, `datetime.combine(d,
time.max)` is `⟨d, timeMaxTick⟩`. -/
structure DateTime where
  day : Int
  tick : Nat
deriving DecidableEq, Repr

/-- `time.max` as microseconds within the day: 24*60*60*1000000 - 1. -/
def timeMaxTick : Nat := 86399999999

/-- `a <= b` on datetimes (lexicographic on day then tick). -/
def DateTime.leB (a b : DateTime) : Bool :=
  a.day < b.day || (a.day == b.day && a.tick ≤ b.tick)

/-- `a < b` on datetimes. -/
def DateTime.ltB (a b : DateTime) : Bool :=
  a.day < b.day || (a.day == b.day && a.tick < b.tick)

/-- A row of `corptools.models.CorporationWalletDivision` as the view reads
it: primary key, the corporation name reached through
`corporation__corporation__corporation_name`, the division number, the
optional division name (`division.name or ""` in the view) and the balance. -/
structure Division where
  id : Int
  corp_name : String
  division : Nat
  name : Option String
  balance : ℚ
deriving DecidableEq, Repr

/-- A row of `corptools.models.CorporationWalletJournalEntry` as the view
reads it: the fields the dashboard filters and aggregates on.  The further
display-only columns of a drill-down row (parties, description, reason, tax,
…) are carried by the same record in the database and the drill-down shaping
is a one-to-one projection of each entry, so the drill-down row list is
modelled as the entry list itself. -/
structure Entry where
  id : Nat
  entry_id : Nat
  date : DateTime
  amount : ℚ
  ref_type : String
  division_id : Int
deriving DecidableEq, Repr

/-- The query string of the request: `GET.get` fields as `Option String`,
`GET.getlist` fields as `List String`. -/
structure Request where
  days : Option String
  start_date : Option String
  end_date : Option String
  divisions : List String
  ref_types : List String
  expense_ref_types : List String
  drill : Option String
  ref_type : Option String
  division_id : Option String
deriving Repr

/-- The data the host application supplies to one request: the current
instant, the divisions and journal entries visible to the requesting user
(the upstream `get_visible(user)` managers), and the user's permission
predicate `user.has_perm`. -/
structure Env where
  now : DateTime
  visibleDivisions : List Division
  visibleEntries : List Entry
  hasPerm : String → Bool

/-- `WALLET_PERMISSIONS` of `views.py`. -/
def WALLET_PERMISSIONS : List String :=
  ["corptools.own_corp_manager",
   "corptools.alliance_corp_manager",
   "corptools.state_corp_manager",
   "corptools.global_corp_manager",
   "corptools.holding_corp_wallets"]

/-- `_user_can_view_wallets`: `any(user.has_perm(perm) for perm in
WALLET_PERMISSIONS)`. -/
def userCanViewWallets (hasPerm : String → Bool) : Bool :=
  WALLET_PERMISSIONS.any hasPerm

/-- Decimal digits of a nonnegative integer literal; `none` when the list is
empty or holds a non-digit. -/
def parseDigits : List Char → Option Nat
  | [] => none
  | cs => cs.foldl
      (fun acc c => match acc with
        | none => none
        | some n => if c.isDigit then some (n * 10 + (c.toNat - 48)) else none)
      (some 0)

/-- Python `int(s)` on a string: optional sign then digits, `none` on
failure. -/
def pyInt? (s : String) : Option Int :=
  match s.toList with
  | '-' :: rest => (parseDigits rest).map (fun n => -(n : Int))
  | '+' :: rest => (parseDigits rest).map (fun n => (n : Int))
  | cs => (parseDigits cs).map (fun n => (n : Int))

/-- `_parse_int_list`: keep the values `int(...)` accepts, in order. -/
def parseIntList (values : List String) : List Int :=
  values.filterMap pyInt?

/-- Whether a character is cased-alphabetic for `str.title()` purposes
(ASCII letters; the ref types of the journal are ASCII identifiers). -/
def isCased (c : Char) : Bool := c.isAlpha

/-- `str.title()`: uppercase every character that follows a non-cased
character, lowercase the rest. -/
def pyTitle (s : String) : String :=
  let step : Bool × List Char → Char → Bool × List Char :=
    fun st c =>
      let out := if st.1 then c.toLower else c.toUpper
      (isCased c, out :: st.2)
  let res := s.toList.foldl step (false, [])
  String.mk res.2.reverse

/-- `_format_ref_type`: `ref_type.replace("_", " ").title()`. -/
def formatRefType (ref_type : String) : String :=
  pyTitle (String.mk (ref_type.toList.map (fun c => if c = '_' then ' ' else c)))

/-- Leap year of the proleptic Gregorian calendar. -/
def isLeap (y : Int) : Bool := y % 4 == 0 && (y % 100 != 0 || y % 400 == 0)

/-- Days in a month, proleptic Gregorian. -/
def daysInMonth (y : Int) (m : Nat) : Nat :=
  if m = 2 then (if isLeap y then 29 else 28)
  else if m = 4 || m = 6 || m = 9 || m = 11 then 30
  else 31

/-- Ordinal day (days since 1970-01-01) of a civil date, the standard
days-from-civil formula. -/
def daysFromCivil (y : Int) (m d : Nat) : Int :=
  let y1 : Int := if m ≤ 2 then y - 1 else y
  let era : Int := (if 0 ≤ y1 then y1 else y1 - 399) / 400
  let yoe : Int := y1 - era * 400
  let mp : Int := (if m ≤ 2 then (m : Int) + 9 else (m : Int) - 3)
  let doy : Int := (153 * mp + 2) / 5 + (d : Int) - 1
  let doe : Int := yoe * 365 + yoe / 4 - yoe / 100 + doy
  era * 146097 + doe - 719468

/-- One decimal digit. -/
def digit? (c : Char) : Option Nat :=
  if c.isDigit then some (c.toNat - 48) else none

/-- `_parse_date`: `date.fromisoformat(value)` on an optional query value,
yielding the ordinal day of a valid `YYYY-MM-DD` string and `none` otherwise
(absent value, malformed string, out-of-range month or day). -/
def parseDate? : Option String → Option Int
  | none => none
  | some s =>
    match s.toList with
    | [y1, y2, y3, y4, '-', m1, m2, '-', d1, d2] =>
      match digit? y1, digit? y2, digit? y3, digit? y4,
            digit? m1, digit? m2, digit? d1, digit? d2 with
      | some a, some b, some c, some d, some e, some f, some g, some h =>
        let y : Int := ((a * 10 + b) * 10 + c) * 10 + d
        let m : Nat := e * 10 + f
        let dd : Nat := g * 10 + h
        if 1 ≤ y && 1 ≤ m && m ≤ 12 && 1 ≤ dd && dd ≤ daysInMonth y m then
          some (daysFromCivil y m dd)
        else none
      | _, _, _, _, _, _, _, _ => none
    | _ => none

/-- String order on the raw character codes, as a decidable relation for
sorting `order_by("ref_type")` results.  Only the permutation property of
these sorts matters to the dashboard's semantics (no claim depends on the
collation the database would use). -/
def strLtList : List Char → List Char → Bool
  | [], [] => false
  | [], _ :: _ => true
  | _ :: _, [] => false
  | a :: as, b :: bs =>
    if a.toNat < b.toNat then true
    else if b.toNat < a.toNat then false
    else strLtList as bs

/-- `a <= b` on strings via character codes. -/
def strLe (a b : String) : Prop := strLtList b.toList a.toList = false

instance : DecidableRel strLe := fun a b =>
  inferInstanceAs (Decidable (strLtList b.toList a.toList = false))

/-- Descending order on datetimes (`order_by("-date")`). -/
def dateGe (a b : Entry) : Prop := DateTime.leB b.date a.date = true

instance : DecidableRel dateGe := fun a b =>
  inferInstanceAs (Decidable (DateTime.leB b.date a.date = true))

/-- `days_options` of the view. -/
def daysOptions : List Int := [7, 30, 60, 90, 180, 365]

/-- Lines 129-132: `days = int(request.GET.get("days", 30))` with the
`try/except` fallback to 30. -/
def parseDaysRaw (req : Request) : Int :=
  match req.days with
  | none => 30
  | some s => (pyInt? s).getD 30

/-- Lines 134-135: `if days not in days_options: days = 30`. -/
def parseDays (req : Request) : Int :=
  if parseDaysRaw req ∈ daysOptions then parseDaysRaw req else 30

/-- The date range after normalization, plus the normalized custom bounds the
view echoes into the context (`custom_start_value`/`custom_end_value`). -/
structure DateRange where
  start_date : DateTime
  end_date : DateTime
  custom_start : Option Int
  custom_end : Option Int
deriving DecidableEq, Repr

/-- Lines 146-147: `if custom_start > custom_end: custom_start, custom_end =
custom_end, custom_start`. -/
def swapIfDescending (a b : Int) : Int × Int :=
  if b < a then (b, a) else (a, b)

/-- Lines 151-153: `if end_date > now: end_date = now`. -/
def clampToNow (now e : DateTime) : DateTime :=
  if DateTime.ltB now e then now else e

/-- Lines 137-153: default range `[now - timedelta(days), now]`; when a
custom `start_date`/`end_date` parses, fill the missing bound from the other,
swap an out-of-order pair, take `combine(custom_start, time.min)` and
`combine(custom_end, time.max)`, and clamp a future end to `now`. -/
def computeRange (env : Env) (req : Request) : DateRange :=
  let days := parseDays req
  match parseDate? req.start_date, parseDate? req.end_date with
  | none, none =>
    ⟨⟨env.now.day - days, env.now.tick⟩, env.now, none, none⟩
  | cs0, ce0 =>
    let cs1 : Int := match cs0 with | some a => a | none => ce0.getD 0
    let ce1 : Int := match ce0 with | some b => b | none => cs1
    let cs2 : Int := (swapIfDescending cs1 ce1).1
    let ce2 : Int := (swapIfDescending cs1 ce1).2
    ⟨⟨cs2, 0⟩, clampToNow env.now ⟨ce2, timeMaxTick⟩, some cs2, some ce2⟩

/-- Lines 161-170: parse the `divisions` multi-value parameter; a non-empty
parse filters the visible divisions by id, and an empty parse or an empty
filter result falls back to all visible divisions.  (`order_by` on the
division queryset only permutes it and no claim depends on the iteration
order, so the environment's order is kept.) -/
def preSelectedDivisions (env : Env) (req : Request) : List Division :=
  if (parseIntList req.divisions).isEmpty then env.visibleDivisions
  else env.visibleDivisions.filter
    (fun d => decide (d.id ∈ parseIntList req.divisions))

/-- Lines 167-170: the empty-filter fallback to all visible divisions. -/
def selectedDivisionsQS (env : Env) (req : Request) : List Division :=
  if (preSelectedDivisions env req).isEmpty then env.visibleDivisions
  else preSelectedDivisions env req

/-- `division_ids = list(selected_divisions_qs.values_list("id", flat=True))`
after the fallback. -/
def divisionIds (env : Env) (req : Request) : List Int :=
  (selectedDivisionsQS env req).map (fun d => d.id)

/-- Lines 172-176: the journal entries the dashboard aggregates —
`get_visible(user)` narrowed to the date range and the selected divisions. -/
def filteredEntries (env : Env) (req : Request) : List Entry :=
  let r := computeRange env req
  let ids := divisionIds env req
  env.visibleEntries.filter (fun e =>
    DateTime.leB r.start_date e.date && DateTime.leB e.date r.end_date &&
      decide (e.division_id ∈ ids))

/-- `Sum("amount")` with `Coalesce(..., 0)` over a list of entries. -/
def sumAmounts (es : List Entry) : ℚ := (es.map (fun e => e.amount)).sum

/-- Lines 178-183: `ref_type` values of the positive-amount entries,
distinct, ordered by `ref_type`. -/
def refTypeOptions (es : List Entry) : List String :=
  List.insertionSort strLe ((es.filter (fun e => decide (0 < e.amount))).map
    (fun e => e.ref_type)).dedup

/-- Lines 195-200: the same for negative-amount entries. -/
def expenseRefTypeOptions (es : List Entry) : List String :=
  List.insertionSort strLe ((es.filter (fun e => decide (e.amount < 0))).map
    (fun e => e.ref_type)).dedup

/-- Lines 189-191: the `ref_types` query selection kept only where it names
an available option (`if selected_ref_types:` guards the narrowing, so an
empty `getlist` stays empty here). -/
def refTypesQuerySelection (env : Env) (req : Request) : List String :=
  if req.ref_types.isEmpty then req.ref_types
  else req.ref_types.filter
    (fun r => decide (r ∈ refTypeOptions (filteredEntries env req)))

/-- Lines 192-193: an empty narrowed selection defaults to all options. -/
def selectedRefTypes (env : Env) (req : Request) : List String :=
  if (refTypesQuerySelection env req).isEmpty then
    refTypeOptions (filteredEntries env req)
  else refTypesQuerySelection env req

/-- Lines 206-210: the `expense_ref_types` query selection, same scheme. -/
def expenseRefTypesQuerySelection (env : Env) (req : Request) : List String :=
  if req.expense_ref_types.isEmpty then req.expense_ref_types
  else req.expense_ref_types.filter
    (fun r => decide (r ∈ expenseRefTypeOptions (filteredEntries env req)))

/-- Lines 211-212: the empty-selection fallback to all expense options. -/
def selectedExpenseRefTypes (env : Env) (req : Request) : List String :=
  if (expenseRefTypesQuerySelection env req).isEmpty then
    expenseRefTypeOptions (filteredEntries env req)
  else expenseRefTypesQuerySelection env req

/-- Lines 214-216: positive-amount entries, narrowed to the selected income
ref types when that selection is non-empty. -/
def incomeEntries (env : Env) (req : Request) : List Entry :=
  let sel := selectedRefTypes env req
  let inc := (filteredEntries env req).filter (fun e => decide (0 < e.amount))
  if sel.isEmpty then inc else inc.filter (fun e => decide (e.ref_type ∈ sel))

/-- Lines 218-220: negative-amount entries, narrowed to the selected expense
ref types when that selection is non-empty. -/
def expenseEntries (env : Env) (req : Request) : List Entry :=
  let sel := selectedExpenseRefTypes env req
  let exps := (filteredEntries env req).filter (fun e => decide (e.amount < 0))
  if sel.isEmpty then exps else exps.filter (fun e => decide (e.ref_type ∈ sel))

/-- A row of `income_by_ref`: the grouped query's `ref_type`, `total`,
`count` plus the `label` added in the loop. -/
structure IncomeRefRow where
  ref_type : String
  total : ℚ
  count : Nat
  label : String
deriving DecidableEq, Repr

/-- A row of `expense_by_ref`: as the income row, plus `total_abs`. -/
structure ExpenseRefRow where
  ref_type : String
  total : ℚ
  count : Nat
  label : String
  total_abs : ℚ
deriving DecidableEq, Repr

/-- The distinct `ref_type` keys of a `values("ref_type")` grouping. -/
def distinctRefTypes (es : List Entry) : List String :=
  (es.map (fun e => e.ref_type)).dedup

/-- Descending order by `total` (`order_by("-total")`). -/
def totalGeI (a b : IncomeRefRow) : Prop := b.total ≤ a.total

instance : DecidableRel totalGeI := fun a b =>
  inferInstanceAs (Decidable (b.total ≤ a.total))

instance : IsTotal IncomeRefRow totalGeI := ⟨fun a b => le_total b.total a.total⟩

instance : IsTrans IncomeRefRow totalGeI :=
  ⟨fun _ _ _ h1 h2 => le_trans h2 h1⟩

/-- Ascending order by `total` (`order_by("total")`). -/
def totalLeE (a b : ExpenseRefRow) : Prop := a.total ≤ b.total

instance : DecidableRel totalLeE := fun a b =>
  inferInstanceAs (Decidable (a.total ≤ b.total))

instance : IsTotal ExpenseRefRow totalLeE := ⟨fun a b => le_total a.total b.total⟩

instance : IsTrans ExpenseRefRow totalLeE :=
  ⟨fun _ _ _ h1 h2 => le_trans h1 h2⟩

/-- One group of the income `values("ref_type").annotate(total, count)`
query, with the `label` the loop adds. -/
def incomeRowOf (es : List Entry) (r : String) : IncomeRefRow :=
  let g := es.filter (fun e => e.ref_type == r)
  { ref_type := r, total := sumAmounts g, count := g.length,
    label := formatRefType r }

/-- One group of the expense query, with `label` and `total_abs`. -/
def expenseRowOf (es : List Entry) (r : String) : ExpenseRefRow :=
  let g := es.filter (fun e => e.ref_type == r)
  { ref_type := r, total := sumAmounts g, count := g.length,
    label := formatRefType r, total_abs := |sumAmounts g| }

/-- Lines 229-235: group the income entries by `ref_type` with
`Sum("amount")` and `Count("id")`, order by total descending, label each
row. -/
def incomeByRef (env : Env) (req : Request) : List IncomeRefRow :=
  List.insertionSort totalGeI
    ((distinctRefTypes (incomeEntries env req)).map
      (incomeRowOf (incomeEntries env req)))

/-- Lines 237-244: group the expense entries by `ref_type`, order by total
ascending (most negative first), label each row and add `total_abs`. -/
def expenseByRef (env : Env) (req : Request) : List ExpenseRefRow :=
  List.insertionSort totalLeE
    ((distinctRefTypes (expenseEntries env req)).map
      (expenseRowOf (expenseEntries env req)))

/-- The statistics `_series_stats` returns. -/
structure SeriesStats where
  total : ℚ
  avg : ℚ
  max : ℚ
  max_date : Option Int
  active_days : Nat
  days : Nat
deriving DecidableEq, Repr

/-- `_series_stats` (lines 64-90): totals, average, maximum with the date of
its first occurrence when positive, and the count of strictly positive
days. -/
def seriesStats (values : List ℚ) (start_day : Int) : SeriesStats :=
  match values with
  | [] =>
    { total := 0, avg := 0, max := 0, max_date := none, active_days := 0,
      days := 0 }
  | v :: vs =>
    let total := (v :: vs).sum
    let days := (v :: vs).length
    let avg := if days ≠ 0 then total / (days : ℚ) else 0
    let max_value := vs.foldl max v
    let max_index := (v :: vs).indexOf max_value
    let max_date :=
      if 0 < max_value then some (start_day + (max_index : Int)) else none
    let active_days := ((v :: vs).filter (fun x => decide (0 < x))).length
    { total := total, avg := avg, max := max_value, max_date := max_date,
      active_days := active_days, days := days }

/-- One point of a daily series: the calendar day (the source stores
`day.isoformat()`; we keep the ordinal) and that day's total (stored as
`float(total)` in the source; we keep the exact rational). -/
structure SeriesPoint where
  day : Int
  total : ℚ
deriving DecidableEq, Repr

/-- `Sum("amount")` of the entries of one calendar day. -/
def daySum (es : List Entry) (d : Int) : ℚ :=
  sumAmounts (es.filter (fun e => e.date.day == d))

/-- The days present in the `TruncDate`-grouped query, the keys of
`totals_by_day`. -/
def dayKeys (es : List Entry) : List Int :=
  (es.map (fun e => e.date.day)).dedup

/-- `totals_by_day.get(day, Decimal("0.00"))`: the grouped sum where the day
occurs among the entries, else absent. -/
def totalsByDay (es : List Entry) (d : Int) : Option ℚ :=
  if d ∈ dayKeys es then some (daySum es d) else none

/-- `_build_daily_series` (lines 93-120): one point per calendar day from
`start_date.date()` to `end_date.date()` inclusive, each day's total looked
up in the grouped dictionary with default 0, taken absolute when
`abs_values`; the stats are `_series_stats` of the value list. -/
def buildDailySeries (es : List Entry) (start_date end_date : DateTime)
    (abs_values : Bool) : List SeriesPoint × SeriesStats :=
  let days_count : Int := end_date.day - start_date.day
  let offsets := List.range (days_count + 1).toNat
  let valueAt : Nat → ℚ := fun o =>
    let t := (totalsByDay es (start_date.day + (o : Int))).getD 0
    if abs_values then |t| else t
  let values := offsets.map valueAt
  let points := offsets.map (fun (o : Nat) =>
    ({ day := start_date.day + (o : Int), total := valueAt o } : SeriesPoint))
  (points, seriesStats values start_date.day)

/-- A row of the per-division table (lines 272-288). -/
structure DivisionRow where
  corp_name : String
  division : Nat
  name : String
  balance : ℚ
  income : ℚ
  expenses : ℚ
  net : ℚ
  division_id : Int
deriving DecidableEq, Repr

/-- Lines 253-288: the `division_totals` grouped query keyed by
`division_id` with filtered income/expense sums, then one row per selected
division with the lookup defaulting to 0.  The grouped-query-then-lookup of
the source equals this direct per-division filtered sum: a division with no
entries is absent from the dictionary and gets the same `Decimal("0.00")`
defaults. -/
def divisionRows (env : Env) (req : Request) : List DivisionRow :=
  let es := filteredEntries env req
  let selR := selectedRefTypes env req
  let selE := selectedExpenseRefTypes env req
  (selectedDivisionsQS env req).map (fun d =>
    let g := es.filter (fun e => e.division_id == d.id)
    let income := sumAmounts (g.filter (fun e =>
      decide (0 < e.amount) && decide (e.ref_type ∈ selR)))
    let expenses := sumAmounts (g.filter (fun e =>
      decide (e.amount < 0) && decide (e.ref_type ∈ selE)))
    { corp_name := d.corp_name, division := d.division,
      name := d.name.getD "", balance := d.balance, income := income,
      expenses := expenses, net := income + expenses, division_id := d.id })

/-- The computed drill-down (lines 380-385).  Each row of the source is a
one-to-one dictionary projection of one journal entry (joined with its
division and party names), so the rows are modelled as the entries
themselves; `count` is `len(drill_rows)`.  `clear_query`, a re-encoding of
the query string with the drill keys removed, is template plumbing and not
modelled. -/
structure Drilldown where
  title : String
  rows : List Entry
  count : Nat
deriving DecidableEq, Repr

/-- Lines 290-385: the drill-down.  `if drill_type:` is Python truthiness,
so an absent or empty `drill` leaves it `None`.  An `income_ref` or
`expense_ref` drill outside the corresponding selection, and a `division`
drill whose id fails to parse, is 0, or is not among the selected division
ids, get `drill_qs.none()`.  A `drill` value other than the three known ones
leaves `drill_qs` unnarrowed (all filtered entries). -/
def drilldown (env : Env) (req : Request) : Option Drilldown :=
  match req.drill with
  | none => none
  | some dt =>
    if dt = "" then none
    else
      let base := List.insertionSort dateGe (filteredEntries env req)
      let mk : String → List Entry → Drilldown := fun t rs =>
        { title := t, rows := rs, count := rs.length }
      if dt = "income_ref" then
        let rt := req.ref_type.getD ""
        if rt ∈ selectedRefTypes env req then
          some (mk ("Income: " ++ formatRefType rt)
            (base.filter (fun e => decide (0 < e.amount) && e.ref_type == rt)))
        else some (mk "" [])
      else if dt = "expense_ref" then
        let rt := req.ref_type.getD ""
        if rt ∈ selectedExpenseRefTypes env req then
          some (mk ("Expenses: " ++ formatRefType rt)
            (base.filter (fun e => decide (e.amount < 0) && e.ref_type == rt)))
        else some (mk "" [])
      else if dt = "division" then
        match pyInt? (req.division_id.getD "") with
        | none => some (mk "" [])
        | some did =>
          if did ≠ 0 ∧ did ∈ divisionIds env req then
            let selR := selectedRefTypes env req
            let selE := selectedExpenseRefTypes env req
            let rs := base.filter (fun e =>
              e.division_id == did &&
                ((decide (0 < e.amount) && decide (e.ref_type ∈ selR)) ||
                  (decide (e.amount < 0) && decide (e.ref_type ∈ selE))))
            let title :=
              match (divisionRows env req).find? (fun row =>
                  row.division_id == did) with
              | some row =>
                let label := row.corp_name ++ " - " ++ toString row.division
                let label :=
                  if row.name ≠ "" then label ++ " " ++ row.name else label
                "Division: " ++ label
              | none => "Division"
            some (mk title rs)
          else some (mk "" [])
      else some (mk "" base)

/-- The `summary` dictionary of the context (lines 401-409). -/
structure Summary where
  income_total : ℚ
  expense_total : ℚ
  expense_total_abs : ℚ
  net_total : ℚ
  entry_count : Nat
  income_count : Nat
  expense_count : Nat
deriving DecidableEq, Repr

/-- The context dictionary the view renders (lines 387-417).  String keys
become fields; the `divisions` queryset and the choice label pairs keep their
places; `division_ids` is a Python `set` in the source and membership is the
only operation the template uses, kept here as the underlying list. -/
structure Context where
  days : Int
  days_options : List Int
  start_date : DateTime
  end_date : DateTime
  custom_start_value : Option Int
  custom_end_value : Option Int
  division_rows : List DivisionRow
  division_ids : List Int
  divisions : List Division
  ref_type_choices : List (String × String)
  selected_ref_types : List String
  expense_ref_type_choices : List (String × String)
  selected_expense_ref_types : List String
  summary : Summary
  income_by_ref : List IncomeRefRow
  expense_by_ref : List ExpenseRefRow
  income_series : List SeriesPoint
  expense_series : List SeriesPoint
  income_stats : SeriesStats
  expense_stats : SeriesStats
  drilldown : Option Drilldown

/-- The whole context computation of `dashboard` after the permission check
(lines 128-417). -/
def buildContext (env : Env) (req : Request) : Context :=
  let r := computeRange env req
  let es := filteredEntries env req
  let inc := incomeEntries env req
  let exps := expenseEntries env req
  let income_total := sumAmounts inc
  let expense_total := sumAmounts exps
  let incSeries := buildDailySeries inc r.start_date r.end_date false
  let expSeries := buildDailySeries exps r.start_date r.end_date true
  { days := parseDays req,
    days_options := daysOptions,
    start_date := r.start_date,
    end_date := r.end_date,
    custom_start_value := r.custom_start,
    custom_end_value := r.custom_end,
    division_rows := divisionRows env req,
    division_ids := divisionIds env req,
    divisions := env.visibleDivisions,
    ref_type_choices := (refTypeOptions es).map (fun rt => (rt, formatRefType rt)),
    selected_ref_types := selectedRefTypes env req,
    expense_ref_type_choices :=
      (expenseRefTypeOptions es).map (fun rt => (rt, formatRefType rt)),
    selected_expense_ref_types := selectedExpenseRefTypes env req,
    summary :=
      { income_total := income_total,
        expense_total := expense_total,
        expense_total_abs := |expense_total|,
        net_total := income_total + expense_total,
        entry_count := es.length,
        income_count := inc.length,
        expense_count := exps.length },
    income_by_ref := incomeByRef env req,
    expense_by_ref := expenseByRef env req,
    income_series := incSeries.1,
    expense_series := expSeries.1,
    income_stats := incSeries.2,
    expense_stats := expSeries.2,
    drilldown := drilldown env req }

/-- The `dashboard` view (lines 123-419): `PermissionDenied` when
`_user_can_view_wallets` fails, otherwise the rendered context.
(`@login_required` is host-framework plumbing outside the view body.) -/
def dashboard (env : Env) (req : Request) : Except String Context :=
  if !(userCanViewWallets env.hasPerm) then
    Except.error "No permission to view corporation wallet data."
  else
    Except.ok (buildContext env req)

/-! ## Helper lemmas -/

lemma parseDays_mem (req : Request) : parseDays req ∈ daysOptions := by
  by_cases h : parseDaysRaw req ∈ daysOptions
  · simp [parseDays, h]
  · simp [parseDays, h]
    decide

lemma parseDays_pos (req : Request) : 0 < parseDays req := by
  have h := parseDays_mem req
  simp only [daysOptions, List.mem_cons, List.not_mem_nil, or_false] at h
  rcases h with h | h | h | h | h | h <;> rw [h] <;> decide

lemma mem_preSelectedDivisions {env : Env} {req : Request} {d : Division}
    (hd : d ∈ preSelectedDivisions env req) : d ∈ env.visibleDivisions := by
  unfold preSelectedDivisions at hd
  split at hd
  · exact hd
  · exact List.mem_of_mem_filter hd

lemma mem_selectedDivisionsQS {env : Env} {req : Request} {d : Division}
    (hd : d ∈ selectedDivisionsQS env req) : d ∈ env.visibleDivisions := by
  unfold selectedDivisionsQS at hd
  split at hd
  · exact hd
  · exact mem_preSelectedDivisions hd

lemma mem_incomeEntries_pos {env : Env} {req : Request} {e : Entry}
    (he : e ∈ incomeEntries env req) : 0 < e.amount := by
  unfold incomeEntries at he
  dsimp only at he
  split at he
  · have h := List.of_mem_filter he
    simpa using h
  · have h := List.of_mem_filter (List.mem_of_mem_filter he)
    simpa using h

lemma mem_expenseEntries_neg {env : Env} {req : Request} {e : Entry}
    (he : e ∈ expenseEntries env req) : e.amount < 0 := by
  unfold expenseEntries at he
  dsimp only at he
  split at he
  · have h := List.of_mem_filter he
    simpa using h
  · have h := List.of_mem_filter (List.mem_of_mem_filter he)
    simpa using h

lemma list_sum_nonpos : ∀ {l : List ℚ}, (∀ x ∈ l, x ≤ 0) → l.sum ≤ 0 := by
  intro l h
  induction l with
  | nil => simp
  | cons x xs ih =>
    rw [List.sum_cons]
    have h1 := h x (List.mem_cons_self x xs)
    have h2 := ih (fun y hy => h y (List.mem_cons_of_mem x hy))
    linarith

lemma sumAmounts_nonneg {es : List Entry} (h : ∀ e ∈ es, 0 ≤ e.amount) :
    0 ≤ sumAmounts es := by
  unfold sumAmounts
  refine List.sum_nonneg ?_
  intro x hx
  rcases List.mem_map.mp hx with ⟨e, he, rfl⟩
  exact h e he

lemma sumAmounts_nonpos {es : List Entry} (h : ∀ e ∈ es, e.amount ≤ 0) :
    sumAmounts es ≤ 0 := by
  unfold sumAmounts
  refine list_sum_nonpos ?_
  intro x hx
  rcases List.mem_map.mp hx with ⟨e, he, rfl⟩
  exact h e he

/-! ## The claims -/

/-- C1.  The dashboard view gates on the five corptools wallet permissions:
a user with none of them gets `PermissionDenied` and no context is built; a
user with at least one of them gets the rendered dashboard context. -/
theorem dashboard_permission_gate (env : Env) (req : Request) :
    ((∀ p ∈ WALLET_PERMISSIONS, env.hasPerm p = false) →
      dashboard env req =
        Except.error "No permission to view corporation wallet data.") ∧
    ((∃ p ∈ WALLET_PERMISSIONS, env.hasPerm p = true) →
      dashboard env req = Except.ok (buildContext env req)) := by
  constructor
  · intro h
    have hp : userCanViewWallets env.hasPerm = false := by
      unfold userCanViewWallets
      rw [List.any_eq_false]
      intro p hpm
      simp [h p hpm]
    simp [dashboard, hp]
  · intro h
    have hp : userCanViewWallets env.hasPerm = true := by
      unfold userCanViewWallets
      rw [List.any_eq_true]
      rcases h with ⟨p, hpm, hpt⟩
      exact ⟨p, hpm, hpt⟩
    simp [dashboard, hp]

/-- C5.  The context's summary: `income_total` is the (nonnegative) sum over
the positive-amount entries, `expense_total` the (nonpositive) sum over the
negative-amount entries, `net_total` their sum, `expense_total_abs` the
absolute value of `expense_total`, and an empty entry set yields total 0. -/
theorem summary_totals (env : Env) (req : Request) :
    ((buildContext env req).summary.income_total =
      sumAmounts (incomeEntries env req)) ∧
    ((buildContext env req).summary.expense_total =
      sumAmounts (expenseEntries env req)) ∧
    (0 ≤ (buildContext env req).summary.income_total) ∧
    ((buildContext env req).summary.expense_total ≤ 0) ∧
    ((buildContext env req).summary.net_total =
      (buildContext env req).summary.income_total +
        (buildContext env req).summary.expense_total) ∧
    ((buildContext env req).summary.expense_total_abs =
      |(buildContext env req).summary.expense_total|) ∧
    (incomeEntries env req = [] →
      (buildContext env req).summary.income_total = 0) ∧
    (expenseEntries env req = [] →
      (buildContext env req).summary.expense_total = 0) := by
  refine ⟨rfl, rfl, ?_, ?_, rfl, rfl, ?_, ?_⟩
  · exact sumAmounts_nonneg (fun e he => le_of_lt (mem_incomeEntries_pos he))
  · exact sumAmounts_nonpos (fun e he => le_of_lt (mem_expenseEntries_neg he))
  · intro h
    show sumAmounts (incomeEntries env req) = 0
    rw [h]; rfl
  · intro h
    show sumAmounts (expenseEntries env req) = 0
    rw [h]; rfl

/-- C7.  The `days` parameter: an absent, unparsable, or out-of-options value
falls back to 30, so the resulting value is always one of
`[7, 30, 60, 90, 180, 365]`; without custom bounds the range is
`[now - timedelta(days), now]`. -/
theorem days_param_fallback (env : Env) (req : Request) :
    ((buildContext env req).days ∈ daysOptions) ∧
    (req.days = none → (buildContext env req).days = 30) ∧
    (∀ s, req.days = some s → pyInt? s = none →
      (buildContext env req).days = 30) ∧
    (∀ s k, req.days = some s → pyInt? s = some k → k ∉ daysOptions →
      (buildContext env req).days = 30) ∧
    (req.start_date = none → req.end_date = none →
      (buildContext env req).start_date =
        ⟨env.now.day - (buildContext env req).days, env.now.tick⟩ ∧
      (buildContext env req).end_date = env.now) := by
  refine ⟨parseDays_mem req, ?_, ?_, ?_, ?_⟩
  · intro h
    have hraw : parseDaysRaw req = 30 := by unfold parseDaysRaw; rw [h]
    show parseDays req = 30
    unfold parseDays
    rw [hraw]
    decide
  · intro s hs hparse
    have hraw : parseDaysRaw req = 30 := by
      unfold parseDaysRaw; rw [hs]; simp [hparse]
    show parseDays req = 30
    unfold parseDays
    rw [hraw]
    decide
  · intro s k hs hparse hk
    have hraw : parseDaysRaw req = k := by
      unfold parseDaysRaw; rw [hs]; simp [hparse]
    show parseDays req = 30
    unfold parseDays
    rw [hraw, if_neg hk]
  · intro hs he
    constructor
    · show (computeRange env req).start_date = _
      unfold computeRange
      rw [hs, he]
      rfl
    · show (computeRange env req).end_date = env.now
      unfold computeRange
      rw [hs, he]
      rfl

lemma selectedDivisionsQS_fallback {env : Env} {req : Request}
    (h : ∀ d ∈ env.visibleDivisions, d.id ∉ parseIntList req.divisions) :
    selectedDivisionsQS env req = env.visibleDivisions := by
  unfold selectedDivisionsQS
  have hpre : preSelectedDivisions env req = env.visibleDivisions ∨
      preSelectedDivisions env req = [] := by
    unfold preSelectedDivisions
    split
    · exact Or.inl rfl
    · refine Or.inr ?_
      rw [List.filter_eq_nil_iff]
      intro d hd
      simp [h d hd]
  rcases hpre with hpre | hpre <;> rw [hpre] <;> split <;> simp_all

/-- C2.  For every value of the `divisions` parameter, the division ids the
dashboard filters by are a subset of the ids of
`CorporationWalletDivision.get_visible(user)`; a selection naming no visible
division (empty, unparsable, or invisible ids) falls back to all visible
divisions, and every aggregated journal entry belongs to a visible
division. -/
theorem division_selection_visibility (env : Env) (req : Request) :
    (∀ i ∈ (buildContext env req).division_ids,
      i ∈ env.visibleDivisions.map (fun d => d.id)) ∧
    ((∀ d ∈ env.visibleDivisions, d.id ∉ parseIntList req.divisions) →
      (buildContext env req).division_ids =
        env.visibleDivisions.map (fun d => d.id)) ∧
    (∀ e ∈ filteredEntries env req,
      e.division_id ∈ env.visibleDivisions.map (fun d => d.id)) := by
  have hsub : ∀ i ∈ divisionIds env req,
      i ∈ env.visibleDivisions.map (fun d => d.id) := by
    intro i hi
    rcases List.mem_map.mp hi with ⟨d, hd, rfl⟩
    exact List.mem_map_of_mem _ (mem_selectedDivisionsQS hd)
  refine ⟨hsub, ?_, ?_⟩
  · intro h
    show divisionIds env req = _
    unfold divisionIds
    rw [selectedDivisionsQS_fallback h]
  · intro e he
    have hp := List.of_mem_filter he
    simp only [Bool.and_eq_true, decide_eq_true_eq] at hp
    exact hsub e.division_id hp.2

/-- C8.  The selected income reference types are a subset of the distinct
`ref_type`s of the positive-amount entries in range (and likewise the
expense selection for negative-amount entries); a query selection that is
empty or names only unavailable values defaults to all available options. -/
theorem ref_type_selection_bounds (env : Env) (req : Request) :
    (∀ r ∈ (buildContext env req).selected_ref_types,
      r ∈ refTypeOptions (filteredEntries env req)) ∧
    (∀ r ∈ refTypeOptions (filteredEntries env req),
      r ∈ ((filteredEntries env req).filter
        (fun e => decide (0 < e.amount))).map (fun e => e.ref_type)) ∧
    (req.ref_types.filter
        (fun r => decide (r ∈ refTypeOptions (filteredEntries env req))) = [] →
      (buildContext env req).selected_ref_types =
        refTypeOptions (filteredEntries env req)) ∧
    (∀ r ∈ (buildContext env req).selected_expense_ref_types,
      r ∈ expenseRefTypeOptions (filteredEntries env req)) ∧
    (∀ r ∈ expenseRefTypeOptions (filteredEntries env req),
      r ∈ ((filteredEntries env req).filter
        (fun e => decide (e.amount < 0))).map (fun e => e.ref_type)) ∧
    (req.expense_ref_types.filter
        (fun r =>
          decide (r ∈ expenseRefTypeOptions (filteredEntries env req))) = [] →
      (buildContext env req).selected_expense_ref_types =
        expenseRefTypeOptions (filteredEntries env req)) := by
  refine ⟨?_, ?_, ?_, ?_, ?_, ?_⟩
  · intro r hr
    show r ∈ _
    replace hr : r ∈ selectedRefTypes env req := hr
    unfold selectedRefTypes at hr
    split at hr
    · exact hr
    · unfold refTypesQuerySelection at hr
      split at hr
      · simp_all
      · have h := List.of_mem_filter hr
        simpa using h
  · intro r hr
    unfold refTypeOptions at hr
    have hperm := (List.perm_insertionSort strLe
      (((filteredEntries env req).filter
        (fun e => decide (0 < e.amount))).map (fun e => e.ref_type)).dedup)
    rw [hperm.mem_iff, List.mem_dedup] at hr
    exact hr
  · intro h
    have hq : refTypesQuerySelection env req = [] := by
      unfold refTypesQuerySelection
      split
      · rename_i h1
        exact List.isEmpty_iff.mp h1
      · exact h
    show selectedRefTypes env req = _
    unfold selectedRefTypes
    rw [hq]
    rfl
  · intro r hr
    replace hr : r ∈ selectedExpenseRefTypes env req := hr
    unfold selectedExpenseRefTypes at hr
    split at hr
    · exact hr
    · unfold expenseRefTypesQuerySelection at hr
      split at hr
      · simp_all
      · have h := List.of_mem_filter hr
        simpa using h
  · intro r hr
    unfold expenseRefTypeOptions at hr
    have hperm := (List.perm_insertionSort strLe
      (((filteredEntries env req).filter
        (fun e => decide (e.amount < 0))).map (fun e => e.ref_type)).dedup)
    rw [hperm.mem_iff, List.mem_dedup] at hr
    exact hr
  · intro h
    have hq : expenseRefTypesQuerySelection env req = [] := by
      unfold expenseRefTypesQuerySelection
      split
      · rename_i h1
        exact List.isEmpty_iff.mp h1
      · exact h
    show selectedExpenseRefTypes env req = _
    unfold selectedExpenseRefTypes
    rw [hq]
    rfl

lemma map_refType_incomeRows (es : List Entry) :
    ((distinctRefTypes es).map (incomeRowOf es)).map (fun row => row.ref_type) =
      distinctRefTypes es := by
  rw [List.map_map]
  have h : ∀ r ∈ distinctRefTypes es,
      ((fun row => row.ref_type) ∘ incomeRowOf es) r = id r := fun r _ => rfl
  rw [List.map_congr_left h, List.map_id]

lemma map_refType_expenseRows (es : List Entry) :
    ((distinctRefTypes es).map (expenseRowOf es)).map (fun row => row.ref_type) =
      distinctRefTypes es := by
  rw [List.map_map]
  have h : ∀ r ∈ distinctRefTypes es,
      ((fun row => row.ref_type) ∘ expenseRowOf es) r = id r := fun r _ => rfl
  rw [List.map_congr_left h, List.map_id]

/-- C4.  `income_by_ref` has one row per distinct `ref_type` of the income
entries, carrying that group's amount sum and count, sorted descending by
total; `expense_by_ref` likewise for the expense entries, sorted ascending
(most negative first) with `total_abs = |total|`. -/
theorem by_ref_grouping (env : Env) (req : Request) :
    ((incomeByRef env req).Pairwise (fun a b => b.total ≤ a.total)) ∧
    (((incomeByRef env req).map (fun row => row.ref_type)).Nodup) ∧
    (∀ r, r ∈ (incomeByRef env req).map (fun row => row.ref_type) ↔
      r ∈ (incomeEntries env req).map (fun e => e.ref_type)) ∧
    (∀ row ∈ incomeByRef env req,
      row.total = sumAmounts ((incomeEntries env req).filter
        (fun e => e.ref_type == row.ref_type)) ∧
      row.count = ((incomeEntries env req).filter
        (fun e => e.ref_type == row.ref_type)).length) ∧
    ((expenseByRef env req).Pairwise (fun a b => a.total ≤ b.total)) ∧
    (((expenseByRef env req).map (fun row => row.ref_type)).Nodup) ∧
    (∀ r, r ∈ (expenseByRef env req).map (fun row => row.ref_type) ↔
      r ∈ (expenseEntries env req).map (fun e => e.ref_type)) ∧
    (∀ row ∈ expenseByRef env req,
      row.total = sumAmounts ((expenseEntries env req).filter
        (fun e => e.ref_type == row.ref_type)) ∧
      row.count = ((expenseEntries env req).filter
        (fun e => e.ref_type == row.ref_type)).length ∧
      row.total_abs = |row.total|) := by
  have permI := List.perm_insertionSort totalGeI
    ((distinctRefTypes (incomeEntries env req)).map
      (incomeRowOf (incomeEntries env req)))
  have permE := List.perm_insertionSort totalLeE
    ((distinctRefTypes (expenseEntries env req)).map
      (expenseRowOf (expenseEntries env req)))
  refine ⟨?_, ?_, ?_, ?_, ?_, ?_, ?_, ?_⟩
  · exact List.sorted_insertionSort totalGeI _
  · have hnd : (((distinctRefTypes (incomeEntries env req)).map
        (incomeRowOf (incomeEntries env req))).map
          (fun row => row.ref_type)).Nodup := by
      rw [map_refType_incomeRows]
      exact List.nodup_dedup _
    exact ((permI.map (fun row => row.ref_type)).symm).nodup hnd
  · intro r
    rw [show (incomeByRef env req) = List.insertionSort totalGeI _ from rfl]
    rw [(permI.map (fun row => row.ref_type)).mem_iff, map_refType_incomeRows]
    exact List.mem_dedup
  · intro row hrow
    have hmem : row ∈ (distinctRefTypes (incomeEntries env req)).map
        (incomeRowOf (incomeEntries env req)) := permI.mem_iff.mp hrow
    rcases List.mem_map.mp hmem with ⟨r, _, rfl⟩
    exact ⟨rfl, rfl⟩
  · exact List.sorted_insertionSort totalLeE _
  · have hnd : (((distinctRefTypes (expenseEntries env req)).map
        (expenseRowOf (expenseEntries env req))).map
          (fun row => row.ref_type)).Nodup := by
      rw [map_refType_expenseRows]
      exact List.nodup_dedup _
    exact ((permE.map (fun row => row.ref_type)).symm).nodup hnd
  · intro r
    rw [show (expenseByRef env req) = List.insertionSort totalLeE _ from rfl]
    rw [(permE.map (fun row => row.ref_type)).mem_iff, map_refType_expenseRows]
    exact List.mem_dedup
  · intro row hrow
    have hmem : row ∈ (distinctRefTypes (expenseEntries env req)).map
        (expenseRowOf (expenseEntries env req)) := permE.mem_iff.mp hrow
    rcases List.mem_map.mp hmem with ⟨r, _, rfl⟩
    exact ⟨rfl, rfl, rfl⟩

lemma foldl_max_init_le (l : List ℚ) (a : ℚ) : a ≤ l.foldl max a := by
  induction l generalizing a with
  | nil => simp
  | cons x xs ih =>
    rw [List.foldl_cons]
    exact le_trans (le_max_left a x) (ih (max a x))

lemma foldl_max_mem (l : List ℚ) (a : ℚ) :
    l.foldl max a = a ∨ l.foldl max a ∈ l := by
  induction l generalizing a with
  | nil => exact Or.inl rfl
  | cons x xs ih =>
    rw [List.foldl_cons]
    rcases ih (max a x) with h | h
    · rcases max_choice a x with hm | hm
      · exact Or.inl (h.trans hm)
      · exact Or.inr (by rw [h, hm]; exact List.mem_cons_self x xs)
    · exact Or.inr (List.mem_cons_of_mem x h)

lemma le_foldl_max (l : List ℚ) (a : ℚ) : ∀ x ∈ l, x ≤ l.foldl max a := by
  induction l generalizing a with
  | nil => intro x hx; cases hx
  | cons y ys ih =>
    intro x hx
    rw [List.foldl_cons]
    rcases List.mem_cons.mp hx with rfl | h
    · exact le_trans (le_max_right a x) (foldl_max_init_le ys (max a x))
    · exact ih (max a y) x h

/-- C9.  `_series_stats`: on a non-empty value list it returns the sum, the
length, the exact average (the division guarded against a zero length), the
count of strictly positive values (at most the length), the maximum together
with the day of its first occurrence exactly when that maximum is positive;
on the empty list everything is zero and `max_date` is `None`. -/
theorem series_stats_spec (values : List ℚ) (start_day : Int) :
    (values = [] → seriesStats values start_day =
      { total := 0, avg := 0, max := 0, max_date := none, active_days := 0,
        days := 0 }) ∧
    (values ≠ [] →
      (seriesStats values start_day).total = values.sum ∧
      (seriesStats values start_day).days = values.length ∧
      (seriesStats values start_day).avg = values.sum / (values.length : ℚ) ∧
      (seriesStats values start_day).active_days =
        (values.filter (fun v => decide (0 < v))).length ∧
      (seriesStats values start_day).active_days ≤
        (seriesStats values start_day).days ∧
      (seriesStats values start_day).max ∈ values ∧
      (∀ x ∈ values, x ≤ (seriesStats values start_day).max) ∧
      (0 < (seriesStats values start_day).max →
        (seriesStats values start_day).max_date =
          some (start_day +
            ((values.indexOf (seriesStats values start_day).max : Nat) : Int))) ∧
      (¬ 0 < (seriesStats values start_day).max →
        (seriesStats values start_day).max_date = none)) := by
  constructor
  · intro h
    rw [h]
    rfl
  · intro h
    match values with
    | [] => exact absurd rfl h
    | v :: vs =>
      have hmax_mem : (seriesStats (v :: vs) start_day).max ∈ v :: vs := by
        show vs.foldl max v ∈ v :: vs
        rcases foldl_max_mem vs v with h1 | h1
        · rw [h1]; exact List.mem_cons_self v vs
        · exact List.mem_cons_of_mem v h1
      have hmax_ub : ∀ x ∈ v :: vs,
          x ≤ (seriesStats (v :: vs) start_day).max := by
        intro x hx
        show x ≤ vs.foldl max v
        rcases List.mem_cons.mp hx with rfl | h1
        · exact foldl_max_init_le vs x
        · exact le_foldl_max vs v x h1
      refine ⟨rfl, rfl, ?_, rfl, ?_, hmax_mem, hmax_ub, ?_, ?_⟩
      · show (if (v :: vs).length ≠ 0 then
            (v :: vs).sum / ((v :: vs).length : ℚ) else 0) = _
        rw [if_pos (by simp)]
      · exact List.length_filter_le _ _
      · intro hpos
        have hp : 0 < vs.foldl max v := hpos
        show (if 0 < vs.foldl max v then
            some (start_day + (((v :: vs).indexOf (vs.foldl max v) : Nat) : Int))
          else none) = _
        rw [if_pos hp]
        rfl
      · intro hpos
        have hp : ¬ 0 < vs.foldl max v := hpos
        show (if 0 < vs.foldl max v then
            some (start_day + (((v :: vs).indexOf (vs.foldl max v) : Nat) : Int))
          else none) = none
        rw [if_neg hp]

lemma totalsByDay_getD (es : List Entry) (d : Int) :
    (totalsByDay es d).getD 0 = daySum es d := by
  unfold totalsByDay
  split
  · rfl
  · rename_i h
    have hnil : es.filter (fun e => e.date.day == d) = [] := by
      rw [List.filter_eq_nil_iff]
      intro e he hbe
      apply h
      unfold dayKeys
      rw [List.mem_dedup]
      have hd : e.date.day = d := by simpa using hbe
      rw [← hd]
      exact List.mem_map_of_mem _ he
    unfold daySum sumAmounts
    rw [hnil]
    rfl

/-- C3.  `_build_daily_series` on a range with `start.date() <= end.date()`
yields exactly `(end.date() - start.date()).days + 1` points, one per
consecutive calendar day from start to end in ascending order; each point's
total is the sum of that day's entry amounts (absolute when `abs_values`),
and a day with no entries gets total 0. -/
theorem daily_series_zero_filled (es : List Entry) (s e : DateTime)
    (b : Bool) (h : s.day ≤ e.day) :
    ((buildDailySeries es s e b).1.length = (e.day - s.day).toNat + 1) ∧
    (∀ i (hi : i < (buildDailySeries es s e b).1.length),
      ((buildDailySeries es s e b).1.get ⟨i, hi⟩).day = s.day + (i : Int) ∧
      ((buildDailySeries es s e b).1.get ⟨i, hi⟩).total =
        (if b then |daySum es (s.day + (i : Int))|
          else daySum es (s.day + (i : Int)))) ∧
    (∀ i (hi : i < (buildDailySeries es s e b).1.length),
      es.filter (fun x => x.date.day == s.day + (i : Int)) = [] →
      ((buildDailySeries es s e b).1.get ⟨i, hi⟩).total = 0) := by
  have hpts : (buildDailySeries es s e b).1 =
      (List.range (e.day - s.day + 1).toNat).map (fun (o : Nat) =>
        ({ day := s.day + (o : Int),
           total :=
             (if b then |(totalsByDay es (s.day + (o : Int))).getD 0|
               else (totalsByDay es (s.day + (o : Int))).getD 0) } :
          SeriesPoint)) := rfl
  have hlen : (buildDailySeries es s e b).1.length =
      (e.day - s.day).toNat + 1 := by
    rw [hpts, List.length_map, List.length_range]
    omega
  refine ⟨hlen, ?_, ?_⟩
  · intro i hi
    have hget : (buildDailySeries es s e b).1.get ⟨i, hi⟩ =
        ({ day := s.day + (i : Int),
           total :=
             (if b then |(totalsByDay es (s.day + (i : Int))).getD 0|
               else (totalsByDay es (s.day + (i : Int))).getD 0) } :
          SeriesPoint) := by
      simp only [hpts, List.get_eq_getElem, List.getElem_map, List.getElem_range]
    rw [hget]
    exact ⟨rfl, by simp only [totalsByDay_getD]⟩
  · intro i hi hnil
    have hget : (buildDailySeries es s e b).1.get ⟨i, hi⟩ =
        ({ day := s.day + (i : Int),
           total :=
             (if b then |(totalsByDay es (s.day + (i : Int))).getD 0|
               else (totalsByDay es (s.day + (i : Int))).getD 0) } :
          SeriesPoint) := by
      simp only [hpts, List.get_eq_getElem, List.getElem_map, List.getElem_range]
    rw [hget]
    show (if b then |(totalsByDay es (s.day + (i : Int))).getD 0|
        else (totalsByDay es (s.day + (i : Int))).getD 0) = 0
    have hz : daySum es (s.day + (i : Int)) = 0 := by
      unfold daySum sumAmounts
      rw [hnil]
      rfl
    rw [totalsByDay_getD, hz]
    cases b <;> simp

/-- A one-entry journal used to instantiate the daily-series theorem. -/
def seriesWitnessEntries : List Entry :=
  [{ id := 1, entry_id := 10, date := ⟨1, 5⟩, amount := 7,
     ref_type := "bounty_prizes", division_id := 1 }]

/-- Witness for C3 at a concrete three-day range. -/
theorem daily_series_zero_filled_witness :
    ((⟨0, 0⟩ : DateTime).day ≤ (⟨2, 0⟩ : DateTime).day) ∧
    ((buildDailySeries seriesWitnessEntries ⟨0, 0⟩ ⟨2, 0⟩ false).1.length =
      ((⟨2, 0⟩ : DateTime).day - (⟨0, 0⟩ : DateTime).day).toNat + 1) :=
  ⟨by decide,
    (daily_series_zero_filled seriesWitnessEntries ⟨0, 0⟩ ⟨2, 0⟩ false
      (by decide)).1⟩

/-- C6.  The drill-down is `None` when no `drill` parameter is given, and a
drill target outside the current selection — an income/expense `ref_type`
not among the selected reference types, or a `division_id` that is missing,
unparsable, zero, or not among the selected division ids — yields an empty
row list with count 0. -/
theorem drilldown_guarded (env : Env) (req : Request) :
    (req.drill = none → (buildContext env req).drilldown = none) ∧
    (req.drill = some "income_ref" →
      req.ref_type.getD "" ∉ selectedRefTypes env req →
      (buildContext env req).drilldown =
        some { title := "", rows := [], count := 0 }) ∧
    (req.drill = some "expense_ref" →
      req.ref_type.getD "" ∉ selectedExpenseRefTypes env req →
      (buildContext env req).drilldown =
        some { title := "", rows := [], count := 0 }) ∧
    (req.drill = some "division" →
      (∀ k, pyInt? (req.division_id.getD "") = some k →
        k = 0 ∨ k ∉ divisionIds env req) →
      (buildContext env req).drilldown =
        some { title := "", rows := [], count := 0 }) := by
  refine ⟨?_, ?_, ?_, ?_⟩
  · intro h
    show drilldown env req = none
    unfold drilldown
    rw [h]
  · intro h hnot
    show drilldown env req = _
    unfold drilldown
    rw [h]
    dsimp only
    rw [if_neg (by decide), if_pos rfl, if_neg hnot]
    rfl
  · intro h hnot
    show drilldown env req = _
    unfold drilldown
    rw [h]
    dsimp only
    rw [if_neg (by decide), if_neg (by decide), if_pos rfl, if_neg hnot]
    rfl
  · intro h hnot
    show drilldown env req = _
    unfold drilldown
    rw [h]
    dsimp only
    rw [if_neg (by decide), if_neg (by decide), if_neg (by decide),
      if_pos rfl]
    rcases hpi : pyInt? (req.division_id.getD "") with _ | k
    · rfl
    · have hk := hnot k hpi
      have hcond : ¬(k ≠ 0 ∧ k ∈ divisionIds env req) := by
        rintro ⟨hne, hmem⟩
        rcases hk with rfl | hnm
        · exact hne rfl
        · exact hnm hmem
      dsimp only
      rw [if_neg hcond]
      rfl

/-- A request asking for a custom date range lying entirely in the future. -/
def futureRangeRequest : Request :=
  { days := none, start_date := some "2099-01-01",
    end_date := some "2099-01-02", divisions := [], ref_types := [],
    expense_ref_types := [], drill := none, ref_type := none,
    division_id := none }

/-- An environment whose `now` (ordinal day 20000, i.e. 2024-10-04) precedes
that requested range. -/
def pastNowEnv : Env :=
  { now := ⟨20000, 0⟩, visibleDivisions := [], visibleEntries := [],
    hasPerm := fun _ => true }

/-- C10 counterexample: a custom range entirely in the future gets its end
clamped to `now` while its start stays in the future, so after normalization
`start_date <= end_date` fails — the invariant does not hold on every
path. -/
theorem range_order_counterexample :
    DateTime.leB (buildContext pastNowEnv futureRangeRequest).start_date
      (buildContext pastNowEnv futureRangeRequest).end_date = false := by
  decide

lemma DateTime.leB_eq_true {a b : DateTime} :
    DateTime.leB a b = true ↔
      (a.day < b.day ∨ (a.day = b.day ∧ a.tick ≤ b.tick)) := by
  simp [DateTime.leB]

lemma swapIfDescending_le (a b : Int) :
    (swapIfDescending a b).1 ≤ (swapIfDescending a b).2 := by
  unfold swapIfDescending
  split <;> simp <;> omega

lemma leB_clampToNow {s now e : DateTime}
    (h1 : DateTime.leB s now = true) (h2 : DateTime.leB s e = true) :
    DateTime.leB s (clampToNow now e) = true := by
  unfold clampToNow
  split
  · exact h1
  · exact h2

lemma leB_swap_range (a b : Int) :
    DateTime.leB ⟨(swapIfDescending a b).1, 0⟩
      ⟨(swapIfDescending a b).2, timeMaxTick⟩ = true := by
  rw [DateTime.leB_eq_true]
  rcases lt_or_eq_of_le (swapIfDescending_le a b) with h | h
  · exact Or.inl h
  · exact Or.inr ⟨h, Nat.zero_le _⟩

/-- C10 (amended).  After date-range normalization `start_date <= end_date`
holds on every path on which the normalized custom start (at `time.min`)
does not lie after `now` — in particular whenever no custom bound is given,
or the custom range starts at or before today.  (The unguarded claim fails
when the custom range lies entirely in the future: the end is clamped to
`now` but the start is not, see the counterexample.) -/
theorem range_order_amended (env : Env) (req : Request)
    (h : (computeRange env req).custom_start.all
      (fun cs => DateTime.leB ⟨cs, 0⟩ env.now) = true) :
    DateTime.leB (buildContext env req).start_date
      (buildContext env req).end_date = true := by
  show DateTime.leB (computeRange env req).start_date
    (computeRange env req).end_date = true
  unfold computeRange at h ⊢
  rcases hs : parseDate? req.start_date with _ | cs0 <;>
    rcases he : parseDate? req.end_date with _ | ce0 <;>
      rw [hs, he] at h <;> dsimp only at h ⊢
  · -- no custom bounds: [now - days, now]
    rw [DateTime.leB_eq_true]
    have hd := parseDays_pos req
    left
    show env.now.day - parseDays req < env.now.day
    omega
  all_goals
    simp only [Option.all] at h
    exact leB_clampToNow h (leB_swap_range _ _)

/-- A request with a custom range lying in the past of `pastNowEnv.now`. -/
def pastRangeRequest : Request :=
  { days := none, start_date := some "2020-01-01",
    end_date := some "2020-02-01", divisions := [], ref_types := [],
    expense_ref_types := [], drill := none, ref_type := none,
    division_id := none }

/-- Witness for the amended C10 theorem at a concrete past custom range. -/
theorem range_order_amended_witness :
    ((computeRange pastNowEnv pastRangeRequest).custom_start.all
      (fun cs => DateTime.leB ⟨cs, 0⟩ pastNowEnv.now) = true) ∧
    DateTime.leB (buildContext pastNowEnv pastRangeRequest).start_date
      (buildContext pastNowEnv pastRangeRequest).end_date = true :=
  ⟨by decide, range_order_amended pastNowEnv pastRangeRequest (by decide)⟩

end Finances
